import Mathlib

/-!
# cloudrun-handson backend (`app/backend/main.go`)

A shallow embedding of the HTTP backend: the three handlers registered in
`main`, the data-access function `getNotification`, and the parts of the Go
standard library the handlers call (`encoding/json` for `Response` and
`Notification`, `unicode/utf8`, the `ResponseWriter` of `net/http`, the
`Row.Scan` of `database/sql`).

Conventions.
* A Go `string` / `[]byte` is a list of bytes, each byte a natural number
  below 256.
* A Go `error` is an `Option String`; `none` is `nil`.
* `log.Printf` calls write to the process log only and are left out.
* Shifts and masks of the UTF-8 codec are written with `*`, `/` and `%` by
  powers of two; the or-ed bit fields are disjoint, so `|` is `+`.
-/

namespace Backend

/-! ## Strings and errors -/

/-- A Go string: its bytes. -/
abbrev GoString := List Nat

/-- A Go error value, `none` being `nil`. -/
abbrev GoError := Option String

/-- Bytes of an ASCII literal. -/
def ascii (s : String) : GoString := s.toList.map Char.toNat

/-! ## `unicode/utf8` -/

/-- The replacement rune `utf8.RuneError`. -/
def RuneError : Nat := 0xFFFD

/-- The table `first` together with `acceptRanges`: for a leading byte of a
multi-byte sequence, the sequence length and the accepted range of the
second byte; `none` for a byte that cannot start such a sequence. -/
def first (s0 : Nat) : Option (Nat × Nat × Nat) :=
  if 0xC2 ≤ s0 ∧ s0 ≤ 0xDF then some (2, 0x80, 0xBF)
  else if s0 = 0xE0 then some (3, 0xA0, 0xBF)
  else if 0xE1 ≤ s0 ∧ s0 ≤ 0xEC then some (3, 0x80, 0xBF)
  else if s0 = 0xED then some (3, 0x80, 0x9F)
  else if 0xEE ≤ s0 ∧ s0 ≤ 0xEF then some (3, 0x80, 0xBF)
  else if s0 = 0xF0 then some (4, 0x90, 0xBF)
  else if 0xF1 ≤ s0 ∧ s0 ≤ 0xF3 then some (4, 0x80, 0xBF)
  else if s0 = 0xF4 then some (4, 0x80, 0x8F)
  else none

/-- The function `utf8.DecodeRuneInString`: the first rune of `s` and its
width in bytes; `(RuneError, 1)` for an invalid encoding, `(RuneError, 0)`
for the empty string. -/
def decodeRune (s : GoString) : Nat × Nat :=
  match s with
  | [] => (RuneError, 0)
  | s0 :: t =>
    if s0 < 0x80 then (s0, 1) else
    match first s0 with
    | none => (RuneError, 1)
    | some (sz, lo, hi) =>
      if s.length < sz then (RuneError, 1) else
      match t with
      | [] => (RuneError, 1)
      | s1 :: t1 =>
        if s1 < lo ∨ hi < s1 then (RuneError, 1) else
        if sz ≤ 2 then ((s0 % 32) * 64 + s1 % 64, 2) else
        match t1 with
        | [] => (RuneError, 1)
        | s2 :: t2 =>
          if s2 < 0x80 ∨ 0xBF < s2 then (RuneError, 1) else
          if sz ≤ 3 then ((s0 % 16) * 4096 + (s1 % 64) * 64 + s2 % 64, 3) else
          match t2 with
          | [] => (RuneError, 1)
          | s3 :: _ =>
            if s3 < 0x80 ∨ 0xBF < s3 then (RuneError, 1) else
            ((s0 % 8) * 262144 + (s1 % 64) * 4096 + (s2 % 64) * 64 + s3 % 64, 4)

/-- The function `utf8.EncodeRune`: the UTF-8 bytes of a rune, those of
`RuneError` for a surrogate or a value out of range. -/
def encodeRune (r : Nat) : GoString :=
  if r ≤ 0x7F then [r]
  else if r ≤ 0x7FF then [0xC0 + r / 64, 0x80 + r % 64]
  else if r < 0xD800 ∨ (0xDFFF < r ∧ r ≤ 0xFFFF) then
    [0xE0 + r / 4096, 0x80 + (r / 64) % 64, 0x80 + r % 64]
  else if 0xFFFF < r ∧ r ≤ 0x10FFFF then
    [0xF0 + r / 262144, 0x80 + (r / 4096) % 64, 0x80 + (r / 64) % 64, 0x80 + r % 64]
  else [0xEF, 0xBF, 0xBD]

/-- The loop of `utf8.ValidString`, with fuel for the remaining length. -/
def validLoop : Nat → GoString → Bool
  | 0, s => s.isEmpty
  | fuel + 1, s =>
    match s with
    | [] => true
    | b :: rest =>
      if b < 0x80 then validLoop fuel rest
      else
        let cs := decodeRune s
        if cs.2 = 1 then false else validLoop fuel (s.drop cs.2)

/-- The function `utf8.ValidString`. -/
def validString (s : GoString) : Bool := validLoop s.length s

/-! ## `encoding/json`: encoding -/

/-- The table `htmlSafeSet`: the ASCII bytes `json.Marshal` copies
unescaped. -/
def htmlSafeSet (b : Nat) : Bool :=
  decide (0x20 ≤ b ∧ b < 0x80 ∧ b ≠ 0x22 ∧ b ≠ 0x26 ∧ b ≠ 0x3C ∧ b ≠ 0x3E ∧ b ≠ 0x5C)

/-- The digit table `hex`. -/
def hex (n : Nat) : Nat := (ascii "0123456789abcdef").getD n 0

/-- The escape `appendString` writes for an ASCII byte outside
`htmlSafeSet` (the short escapes of `0x08` and `0x0C` are those of Go 1.22
and later). -/
def escapeByte (b : Nat) : GoString :=
  if b = 0x5C ∨ b = 0x22 then [0x5C, b]
  else if b = 0x08 then [0x5C, 0x62]
  else if b = 0x0C then [0x5C, 0x66]
  else if b = 0x0A then [0x5C, 0x6E]
  else if b = 0x0D then [0x5C, 0x72]
  else if b = 0x09 then [0x5C, 0x74]
  else [0x5C, 0x75, 0x30, 0x30, hex (b / 16), hex (b % 16)]

/-- The loop of `appendString` (with `escapeHTML` set, as `json.Marshal`
does), fuel bounding the remaining length. -/
def appendStringLoop : Nat → GoString → GoString
  | 0, _ => []
  | fuel + 1, src =>
    match src with
    | [] => []
    | b :: rest =>
      if b < 0x80 then
        (if htmlSafeSet b then [b] else escapeByte b) ++ appendStringLoop fuel rest
      else
        let cs := decodeRune (src.take 4)
        if cs.1 = RuneError ∧ cs.2 = 1 then
          ascii "\\ufffd" ++ appendStringLoop fuel rest
        else if cs.1 = 0x2028 ∨ cs.1 = 0x2029 then
          ascii "\\u202" ++ [hex (cs.1 % 16)] ++ appendStringLoop fuel (src.drop cs.2)
        else
          src.take cs.2 ++ appendStringLoop fuel (src.drop cs.2)

/-- The function `appendString`: a Go string as a JSON string literal. -/
def appendString (src : GoString) : GoString :=
  0x22 :: (appendStringLoop src.length src ++ [0x22])

/-- The function `strconv.AppendInt` in base 10. -/
def appendInt (i : Int) : GoString :=
  match i with
  | Int.ofNat n => (Nat.toDigits 10 n).map Char.toNat
  | Int.negSucc n => 0x2D :: (Nat.toDigits 10 (n + 1)).map Char.toNat

/-- The JSON encoding of a Go `bool`. -/
def appendBool (b : Bool) : GoString := if b then ascii "true" else ascii "false"

/-! ## Data model -/

/-- The response envelope `Response`. -/
structure Response where
  Status : Int
  Message : GoString
  deriving DecidableEq, Repr

/-- The record `Notification`; the default value is the zero value of Go. -/
structure Notification where
  ID : GoString := []
  CreatedAt : GoString := []
  UpdatedAt : GoString := []
  IsRead : Bool := false
  IsDeleted : Bool := false
  Verification : Bool := false
  Email : GoString := []
  Body : GoString := []
  deriving DecidableEq, Repr

/-- The call `json.Marshal(body)` for a `Response`: the fields in declaration
order under their Go names; this encoding has no failing case. -/
def marshalResponse (body : Response) : GoString × GoError :=
  (ascii "\x7b\"Status\":" ++ appendInt body.Status
    ++ ascii ",\"Message\":" ++ appendString body.Message ++ ascii "\x7d", none)

/-- The call `json.Marshal(n)` for a `*Notification`. -/
def marshalNotification (n : Notification) : GoString × GoError :=
  (ascii "\x7b\"ID\":" ++ appendString n.ID
    ++ ascii ",\"CreatedAt\":" ++ appendString n.CreatedAt
    ++ ascii ",\"UpdatedAt\":" ++ appendString n.UpdatedAt
    ++ ascii ",\"IsRead\":" ++ appendBool n.IsRead
    ++ ascii ",\"IsDeleted\":" ++ appendBool n.IsDeleted
    ++ ascii ",\"Verification\":" ++ appendBool n.Verification
    ++ ascii ",\"Email\":" ++ appendString n.Email
    ++ ascii ",\"Body\":" ++ appendString n.Body ++ ascii "\x7d", none)

/-! ## `encoding/json`: decoding

The decoder is modelled for the JSON that holds a `Notification`: an object
whose members are strings, booleans or `null`, with white space between the
tokens, members in any order, unknown members ignored and repeated members
overriding. `none` stands for an error of `json.Unmarshal` or for an input
outside this fragment (a number, a nested array or object). -/

/-- The value of a hexadecimal digit, as read by `getu4`. -/
def unhex (c : Nat) : Option Nat :=
  if 0x30 ≤ c ∧ c ≤ 0x39 then some (c - 0x30)
  else if 0x61 ≤ c ∧ c ≤ 0x66 then some (c - 0x61 + 10)
  else if 0x41 ≤ c ∧ c ≤ 0x46 then some (c - 0x41 + 10)
  else none

/-- The function `getu4`: the rune of a leading `\uXXXX`, `none` when the
input does not start with such an escape. -/
def getu4 (s : GoString) : Option Nat :=
  match s with
  | c0 :: c1 :: h0 :: h1 :: h2 :: h3 :: _ =>
    if c0 = 0x5C ∧ c1 = 0x75 then
      match unhex h0, unhex h1, unhex h2, unhex h3 with
      | some a, some b, some c, some d => some (((a * 16 + b) * 16 + c) * 16 + d)
      | _, _, _, _ => none
    else none
  | _ => none

/-- The function `utf16.IsSurrogate`. -/
def isSurrogate (r : Nat) : Bool := decide (0xD800 ≤ r ∧ r < 0xE000)

/-- The function `utf16.DecodeRune` on a first half and an optional second
half: the rune of a valid surrogate pair, `RuneError` otherwise. -/
def utf16DecodeRune (r1 : Nat) (r2 : Option Nat) : Nat :=
  match r2 with
  | some r2 =>
    if 0xD800 ≤ r1 ∧ r1 < 0xDC00 ∧ 0xDC00 ≤ r2 ∧ r2 < 0xE000 then
      (r1 - 0xD800) * 1024 + (r2 - 0xDC00) + 0x10000
    else RuneError
  | none => RuneError

/-- The byte a one-letter escape stands for. -/
def unescapeByte (e : Nat) : Option Nat :=
  if e = 0x22 ∨ e = 0x5C ∨ e = 0x2F then some e
  else if e = 0x62 then some 0x08
  else if e = 0x66 then some 0x0C
  else if e = 0x6E then some 0x0A
  else if e = 0x72 then some 0x0D
  else if e = 0x74 then some 0x09
  else none

/-- The scanning of a string literal together with `unquoteBytes`: from the
input after the opening quote, the decoded string and the input after the
closing quote. Control characters, an unknown escape and a missing closing
quote are errors; invalid UTF-8 is replaced by `RuneError`. -/
def unquoteLoop : Nat → GoString → Option (GoString × GoString)
  | 0, _ => none
  | fuel + 1, s =>
    match s with
    | [] => none
    | c :: rest =>
      if c = 0x22 then some ([], rest)
      else if c = 0x5C then
        match rest with
        | [] => none
        | e :: rest2 =>
          if e = 0x75 then
            match getu4 s with
            | none => none
            | some rr =>
              if isSurrogate rr then
                let dec := utf16DecodeRune rr (getu4 (s.drop 6))
                if dec ≠ RuneError then
                  (unquoteLoop fuel (s.drop 12)).map (fun p => (encodeRune dec ++ p.1, p.2))
                else
                  (unquoteLoop fuel (s.drop 6)).map (fun p => (encodeRune RuneError ++ p.1, p.2))
              else
                (unquoteLoop fuel (s.drop 6)).map (fun p => (encodeRune rr ++ p.1, p.2))
          else
            match unescapeByte e with
            | none => none
            | some b => (unquoteLoop fuel rest2).map (fun p => (b :: p.1, p.2))
      else if c < 0x20 then none
      else if c < 0x80 then (unquoteLoop fuel rest).map (fun p => (c :: p.1, p.2))
      else
        let cs := decodeRune s
        (unquoteLoop fuel (s.drop cs.2)).map (fun p => (encodeRune cs.1 ++ p.1, p.2))

/-- A string literal read from the input after its opening quote. -/
def unquote (s : GoString) : Option (GoString × GoString) := unquoteLoop s.length s

/-- White space between tokens is skipped. -/
def skipSpace : GoString → GoString
  | [] => []
  | c :: rest =>
    if c = 0x20 ∨ c = 0x09 ∨ c = 0x0A ∨ c = 0x0D then skipSpace rest else c :: rest

/-- The input after the literal `lit`, `none` when it does not start with
it. -/
def expect : GoString → GoString → Option GoString
  | [], s => some s
  | _ :: _, [] => none
  | a :: lit, b :: s => if a = b then expect lit s else none

/-- The member values of the fragment. -/
inductive JValue where
  | str (s : GoString)
  | bool (b : Bool)
  | null
  deriving DecidableEq, Repr

/-- A value read from the input, with the input after it. -/
def parseValue (s : GoString) : Option (JValue × GoString) :=
  match s with
  | [] => none
  | c :: rest =>
    if c = 0x22 then (unquote rest).map (fun p => (JValue.str p.1, p.2))
    else if c = 0x74 then (expect (ascii "rue") rest).map (fun r => (JValue.bool true, r))
    else if c = 0x66 then (expect (ascii "alse") rest).map (fun r => (JValue.bool false, r))
    else if c = 0x6E then (expect (ascii "ull") rest).map (fun r => (JValue.null, r))
    else none

/-- The folding of `foldName` on ASCII letters: lower case to upper case. -/
def foldName (k : GoString) : GoString :=
  k.map (fun c => if 0x61 ≤ c ∧ c ≤ 0x7A then c - 0x20 else c)

/-- A string member stored through `set`; `null` leaves the field as it is,
a boolean is a type error. -/
def setString (n : Notification) (set : Notification → GoString → Notification)
    (v : JValue) : Option Notification :=
  match v with
  | .str s => some (set n s)
  | .null => some n
  | .bool _ => none

/-- A boolean member stored through `set`; `null` leaves the field as it is,
a string is a type error. -/
def setBool (n : Notification) (set : Notification → Bool → Notification)
    (v : JValue) : Option Notification :=
  match v with
  | .bool b => some (set n b)
  | .null => some n
  | .str _ => none

/-- The member `key` stored in the field of that name, names compared up to
case; a member of no field is ignored. -/
def setField (n : Notification) (key : GoString) (v : JValue) : Option Notification :=
  let k := foldName key
  if k = foldName (ascii "ID") then setString n (fun n s => { n with ID := s }) v
  else if k = foldName (ascii "CreatedAt") then
    setString n (fun n s => { n with CreatedAt := s }) v
  else if k = foldName (ascii "UpdatedAt") then
    setString n (fun n s => { n with UpdatedAt := s }) v
  else if k = foldName (ascii "IsRead") then setBool n (fun n b => { n with IsRead := b }) v
  else if k = foldName (ascii "IsDeleted") then
    setBool n (fun n b => { n with IsDeleted := b }) v
  else if k = foldName (ascii "Verification") then
    setBool n (fun n b => { n with Verification := b }) v
  else if k = foldName (ascii "Email") then setString n (fun n s => { n with Email := s }) v
  else if k = foldName (ascii "Body") then setString n (fun n s => { n with Body := s }) v
  else some n

/-- The members of an object, read from the opening quote of a key up to the
closing brace and stored into `n` one after the other. -/
def parseMembers : Nat → Notification → GoString → Option (Notification × GoString)
  | 0, _, _ => none
  | fuel + 1, n, s =>
    match skipSpace s with
    | [] => none
    | q :: afterQuote =>
      if q ≠ 0x22 then none else
      match unquote afterQuote with
      | none => none
      | some (key, afterKey) =>
        match skipSpace afterKey with
        | [] => none
        | colon :: afterColon =>
          if colon ≠ 0x3A then none else
          match parseValue (skipSpace afterColon) with
          | none => none
          | some (v, afterValue) =>
            match setField n key v with
            | none => none
            | some n1 =>
              match skipSpace afterValue with
              | [] => none
              | sep :: afterSep =>
                if sep = 0x2C then parseMembers fuel n1 afterSep
                else if sep = 0x7D then some (n1, afterSep)
                else none

/-- The call `json.Unmarshal(data, &n)` on a zero `Notification`: the decoded
record, `none` for an error. -/
def unmarshalNotification (data : GoString) : Option Notification :=
  match skipSpace data with
  | [] => none
  | c :: rest =>
    if c = 0x7B then
      match skipSpace rest with
      | [] => none
      | c1 :: rest1 =>
        if c1 = 0x7D then (if skipSpace rest1 = [] then some {} else none)
        else
          match parseMembers data.length {} (c1 :: rest1) with
          | none => none
          | some (n, tail) => if skipSpace tail = [] then some n else none
    else if c = 0x6E then
      match expect (ascii "ull") rest with
      | none => none
      | some tail => if skipSpace tail = [] then some {} else none
    else none

/-! ## `net/http` -/

/-- The state of an `http.ResponseWriter`: the header map, whether the status
line has been sent, the status sent, whether the handler itself called
`WriteHeader`, and the body written so far. -/
structure ResponseWriter where
  header : List (String × String) := []
  wroteHeader : Bool := false
  status : Nat := 0
  calledWriteHeader : Bool := false
  body : GoString := []
  deriving DecidableEq, Repr

/-- The call `w.Header().Set(key, value)`; the header map is frozen once the
status line is sent. -/
def ResponseWriter.HeaderSet (w : ResponseWriter) (key value : String) : ResponseWriter :=
  if w.wroteHeader then w
  else { w with header := (key, value) :: w.header.filter (fun kv => kv.1 ≠ key) }

/-- The call `w.Header().Del(key)`. -/
def ResponseWriter.HeaderDel (w : ResponseWriter) (key : String) : ResponseWriter :=
  if w.wroteHeader then w
  else { w with header := w.header.filter (fun kv => kv.1 ≠ key) }

/-- The call `w.Header().Get(key)`, `none` standing for an unset key. -/
def ResponseWriter.HeaderGet (w : ResponseWriter) (key : String) : Option String :=
  (w.header.find? (fun kv => kv.1 = key)).map Prod.snd

/-- The status line is sent with `code`, once. -/
def ResponseWriter.sendHeader (w : ResponseWriter) (code : Nat) : ResponseWriter :=
  if w.wroteHeader then w else { w with wroteHeader := true, status := code }

/-- The call `w.WriteHeader(code)` made by a handler. -/
def ResponseWriter.WriteHeader (w : ResponseWriter) (code : Nat) : ResponseWriter :=
  { w.sendHeader code with calledWriteHeader := true }

/-- The call `w.Write(b)`: sends the status line with `http.StatusOK` when it
has not been sent, then appends `b` to the body. -/
def ResponseWriter.Write (w : ResponseWriter) (b : GoString) : ResponseWriter :=
  let w := w.sendHeader 200
  { w with body := w.body ++ b }

/-- The function `http.Error`. -/
def httpError (w : ResponseWriter) (err : String) (code : Nat) : ResponseWriter :=
  let w := w.HeaderDel "Content-Length"
  let w := w.HeaderSet "Content-Type" "text/plain; charset=utf-8"
  let w := w.HeaderSet "X-Content-Type-Options" "nosniff"
  let w := w.WriteHeader code
  w.Write (err.toUTF8.toList.map UInt8.toNat ++ [0x0A])

/-- An inbound `http.Request`: the fields the handlers read, the form being
the parsed query and body parameters. -/
structure Request where
  Method : GoString := []
  URLPath : GoString := []
  RemoteAddr : GoString := []
  Header : List (GoString × List GoString) := []
  Form : List (GoString × List GoString) := []
  deriving DecidableEq, Repr

/-- The method `r.FormValue(key)`: the first value for `key`, the empty string
when there is none. -/
def Request.FormValue (r : Request) (key : GoString) : GoString :=
  match r.Form.find? (fun kv => kv.1 = key) with
  | some (_, v :: _) => v
  | _ => []

/-! ## `database/sql` -/

/-- What the store answers to `QueryRow("select * from notification where
id=$1", id)` followed by `Scan` into the eight destinations.

* `queryErr e`: an error raised before any destination is assigned (the
  query failed, the iteration failed, the number of columns is not eight);
  `Scan` returns it at once.
* `noRows`: the result set is empty, `Scan` returns `sql.ErrNoRows`.
* `row ...`: a row was fetched. Each column carries what `convertAssign`
  makes of it for its destination: `some v` when the conversion succeeds and
  stores `v`, `none` when it fails (a NULL, a value of another type).
  `closeErr` is the result of closing the rows after a complete scan. -/
inductive QueryResult where
  | queryErr (e : String)
  | noRows
  | row (id createdAt updatedAt : Option GoString)
      (isRead isDeleted verification : Option Bool)
      (email body : Option GoString) (closeErr : GoError)
  deriving DecidableEq, Repr

/-- The method `Row.Scan` on the eight fields of `n`: destinations are
assigned from left to right; the first failing conversion stops the scan with
an error and leaves the destinations assigned so far as they are. -/
def Scan (res : QueryResult) (n : Notification) : Notification × GoError :=
  match res with
  | .queryErr e => (n, some e)
  | .noRows => (n, some "sql: no rows in result set")
  | .row id createdAt updatedAt isRead isDeleted verification email body closeErr =>
    match id with
    | none => (n, some "sql: Scan error on column index 0")
    | some v0 =>
    let n := { n with ID := v0 }
    match createdAt with
    | none => (n, some "sql: Scan error on column index 1")
    | some v1 =>
    let n := { n with CreatedAt := v1 }
    match updatedAt with
    | none => (n, some "sql: Scan error on column index 2")
    | some v2 =>
    let n := { n with UpdatedAt := v2 }
    match isRead with
    | none => (n, some "sql: Scan error on column index 3")
    | some v3 =>
    let n := { n with IsRead := v3 }
    match isDeleted with
    | none => (n, some "sql: Scan error on column index 4")
    | some v4 =>
    let n := { n with IsDeleted := v4 }
    match verification with
    | none => (n, some "sql: Scan error on column index 5")
    | some v5 =>
    let n := { n with Verification := v5 }
    match email with
    | none => (n, some "sql: Scan error on column index 6")
    | some v6 =>
    let n := { n with Email := v6 }
    match body with
    | none => (n, some "sql: Scan error on column index 7")
    | some v7 => ({ n with Body := v7 }, closeErr)

/-- The database handle `*sql.DB`, as far as the backend uses it: the answer
of the store to the lookup of each identifier, and the list of identifiers
looked up so far (most recent first). -/
structure DB where
  rows : GoString → QueryResult
  queries : List GoString := []

/-- The call `db.QueryRow("select * from notification where id=$1", id)`. -/
def DB.QueryRow (db : DB) (id : GoString) : QueryResult × DB :=
  (db.rows id, { db with queries := id :: db.queries })

/-! ## The backend -/

/-- The function `getNotification`. -/
def getNotification (db : DB) (id : GoString) : (Notification × GoError) × DB :=
  let n : Notification := {}
  let (res, db) := db.QueryRow id
  let (n, err) := Scan res n
  let n := if err ≠ none then { n with ID := id, Body := ascii "No message found" } else n
  ((n, none), db)

/-- The handler registered for `/backend`. -/
def backendHandler (w : ResponseWriter) (_r : Request) : ResponseWriter :=
  let username := ascii "backend"
  let body : Response := ⟨200, ascii "Hello World, " ++ username ++ ascii "!"⟩
  match marshalResponse body with
  | (_, some err) => httpError w err 500
  | (res, none) =>
    let w := w.HeaderSet "Content-Type" "application/json"
    w.Write res

/-- The handler registered for `/notification`; `db` is the process-wide
handle, `none` when it is nil. The handle is returned with its query log. -/
def notificationHandler (db : Option DB) (w : ResponseWriter) (r : Request) :
    ResponseWriter × Option DB :=
  let id := r.FormValue (ascii "id")
  let msg := ascii "no message"
  match db with
  | none =>
    let body : Response := ⟨503, ascii "Database connection not available"⟩
    let res := (marshalResponse body).1
    let w := w.HeaderSet "Content-Type" "application/json"
    let w := w.WriteHeader 503
    (w.Write res, none)
  | some d =>
    let finish (msg : GoString) (d : DB) : ResponseWriter × Option DB :=
      let body : Response := ⟨200, msg⟩
      match marshalResponse body with
      | (_, some err) => (httpError w err 500, some d)
      | (res, none) =>
        let w := w.HeaderSet "Content-Type" "application/json"
        (w.Write res, some d)
    if id ≠ [] then
      match getNotification d id with
      | ((_, some err), d) => (httpError w err 500, some d)
      | ((n, none), d) =>
        match marshalNotification n with
        | (_, some err) => (httpError w err 500, some d)
        | (byteMsg, none) => finish byteMsg d
    else finish msg d

/-- The handler registered for `/healthcheck`. -/
def healthcheckHandler (w : ResponseWriter) (_r : Request) : ResponseWriter :=
  w.Write (ascii "healthcheck OK")

/-- The routing set up in `main` on the default mux: the three patterns are
exact paths, any other path is answered by `http.NotFound`. -/
def serve (db : Option DB) (w : ResponseWriter) (r : Request) : ResponseWriter × Option DB :=
  if r.URLPath = ascii "/backend" then (backendHandler w r, db)
  else if r.URLPath = ascii "/notification" then notificationHandler db w r
  else if r.URLPath = ascii "/healthcheck" then (healthcheckHandler w r, db)
  else (httpError w "404 page not found" 404, db)

/-- The placeholder record of `getNotification` for `id`. -/
def placeholder (id : GoString) : Notification :=
  { ID := id, CreatedAt := [], UpdatedAt := [], IsRead := false, IsDeleted := false,
    Verification := false, Email := [], Body := ascii "No message found" }

/-- The outcomes in which `Scan` fails before it assigns any destination other
than `ID`: a query error, no row, a failing conversion of the column `ID` or
of the column `CreatedAt`. -/
def failsEarly : QueryResult → Bool
  | .queryErr _ => true
  | .noRows => true
  | .row id createdAt _ _ _ _ _ _ _ => id.isNone || createdAt.isNone

/-- A store whose every lookup finds no row. -/
def emptyStore : DB := { rows := fun _ => .noRows }

/-- A store whose row has a NULL in the column `UpdatedAt`: the scan assigns
`ID` and `CreatedAt` and fails at the third column. -/
def nullUpdatedAtStore : DB :=
  { rows := fun _ => .row (some (ascii "42")) (some (ascii "2024-01-01")) none
      (some true) (some false) (some false) (some (ascii "a@example.com"))
      (some (ascii "hello")) none }

/-- A request for `path` with the single form parameter `id`. -/
def requestWithId (path id : GoString) : Request :=
  { Method := ascii "GET", URLPath := path, Form := [(ascii "id", [id])] }

/-- A store that holds one row, that of identifier `7`. -/
def oneRowStore : DB :=
  { rows := fun id =>
      if id = ascii "7" then
        .row (some (ascii "7")) (some (ascii "2024-01-01")) (some (ascii "2024-01-02"))
          (some true) (some false) (some true) (some (ascii "a@example.com"))
          (some (ascii "hello")) none
      else .noRows }

/-- A record with escapes of every kind and multi-byte runes. -/
def sampleRecord : Notification :=
  { ID := ascii "42", CreatedAt := ascii "2024-01-01T00:00:00Z", UpdatedAt := [],
    IsRead := true, IsDeleted := false, Verification := true,
    Email := ascii "a&b@example.com",
    Body := ascii "No <message> \"found\"\n\\ \x01" ++
      [0xE2, 0x80, 0xA8, 0xC3, 0xA9, 0xF0, 0x9F, 0x98, 0x80, 0xEF, 0xBF, 0xBD] }

/-- The loop of `coerceUTF8`, fuel bounding the remaining length. -/
def coerceLoop : Nat → GoString → GoString
  | 0, _ => []
  | fuel + 1, s =>
    match s with
    | [] => []
    | b :: rest =>
      if b < 0x80 then b :: coerceLoop fuel rest
      else
        let cs := decodeRune s
        if cs.2 = 1 then encodeRune RuneError ++ coerceLoop fuel rest
        else s.take cs.2 ++ coerceLoop fuel (s.drop cs.2)

/-- The string `s` with every byte that is not part of a well-formed UTF-8
sequence replaced by the three bytes of `RuneError`; a valid `s` is left as
it is. -/
def coerceUTF8 (s : GoString) : GoString := coerceLoop s.length s

/-- A request for `/notification` whose `id` is the single byte `0xFF`, as
sent by `?id=%ff`. -/
def invalidIdRequest : Request := requestWithId (ascii "/notification") [0xFF]

/-- The well-formed multi-byte sequences. -/
def IsSeq (l : GoString) : Prop :=
  (∃ b s1, l = [b, s1] ∧ (0xC2 ≤ b ∧ b ≤ 0xDF) ∧ (0x80 ≤ s1 ∧ s1 ≤ 0xBF)) ∨
  (∃ b s1 s2, l = [b, s1, s2] ∧ (0xE0 ≤ b ∧ b ≤ 0xEF) ∧ (0x80 ≤ s1 ∧ s1 ≤ 0xBF) ∧
    (0x80 ≤ s2 ∧ s2 ≤ 0xBF) ∧ (b = 0xE0 → 0xA0 ≤ s1) ∧ (b = 0xED → s1 ≤ 0x9F)) ∨
  (∃ b s1 s2 s3, l = [b, s1, s2, s3] ∧ (0xF0 ≤ b ∧ b ≤ 0xF4) ∧ (0x80 ≤ s1 ∧ s1 ≤ 0xBF) ∧
    (0x80 ≤ s2 ∧ s2 ≤ 0xBF) ∧ (0x80 ≤ s3 ∧ s3 ≤ 0xBF) ∧ (b = 0xF0 → 0x90 ≤ s1) ∧
    (b = 0xF4 → s1 ≤ 0x8F))

/-! ## UTF-8: decoding and encoding are inverse on well-formed sequences -/

theorem encodeRune_two (b s1 : Nat) (hb : 0xC2 ≤ b ∧ b ≤ 0xDF) (h1 : 0x80 ≤ s1 ∧ s1 ≤ 0xBF) :
    encodeRune ((b % 32) * 64 + s1 % 64) = [b, s1] := by
  unfold encodeRune
  rw [if_neg (by omega), if_pos (by omega)]
  congr 1
  · omega
  · congr 1; omega

theorem encodeRune_three (b s1 s2 : Nat) (hb : 0xE0 ≤ b ∧ b ≤ 0xEF)
    (h1 : 0x80 ≤ s1 ∧ s1 ≤ 0xBF) (h2 : 0x80 ≤ s2 ∧ s2 ≤ 0xBF)
    (hlo : b = 0xE0 → 0xA0 ≤ s1) (hsur : b = 0xED → s1 ≤ 0x9F) :
    encodeRune ((b % 16) * 4096 + (s1 % 64) * 64 + s2 % 64) = [b, s1, s2] := by
  unfold encodeRune
  rw [if_neg (by omega), if_neg (by omega), if_pos (by omega)]
  congr 1
  · omega
  · congr 1
    · omega
    · congr 1; omega

theorem encodeRune_four (b s1 s2 s3 : Nat) (hb : 0xF0 ≤ b ∧ b ≤ 0xF4)
    (h1 : 0x80 ≤ s1 ∧ s1 ≤ 0xBF) (h2 : 0x80 ≤ s2 ∧ s2 ≤ 0xBF) (h3 : 0x80 ≤ s3 ∧ s3 ≤ 0xBF)
    (hlo : b = 0xF0 → 0x90 ≤ s1) (hhi : b = 0xF4 → s1 ≤ 0x8F) :
    encodeRune ((b % 8) * 262144 + (s1 % 64) * 4096 + (s2 % 64) * 64 + s3 % 64)
      = [b, s1, s2, s3] := by
  unfold encodeRune
  rw [if_neg (by omega), if_neg (by omega), if_neg (by omega), if_pos (by omega)]
  congr 1
  · omega
  · congr 1
    · omega
    · congr 1
      · omega
      · congr 1; omega

theorem first_two (b : Nat) (hb : 0xC2 ≤ b ∧ b ≤ 0xDF) : first b = some (2, 0x80, 0xBF) := by
  unfold first
  rw [if_pos hb]

theorem first_three (b : Nat) (hb : 0xE0 ≤ b ∧ b ≤ 0xEF) :
    first b = some (3, if b = 0xE0 then 0xA0 else 0x80, if b = 0xED then 0x9F else 0xBF) := by
  unfold first
  split_ifs <;> first | rfl | omega

theorem first_four (b : Nat) (hb : 0xF0 ≤ b ∧ b ≤ 0xF4) :
    first b = some (4, if b = 0xF0 then 0x90 else 0x80, if b = 0xF4 then 0x8F else 0xBF) := by
  unfold first
  split_ifs <;> first | rfl | omega

theorem first_none (b : Nat) (hb : ¬ (0xC2 ≤ b ∧ b ≤ 0xF4)) : first b = none := by
  unfold first
  split_ifs <;> first | rfl | omega

theorem decodeRune_two (b s1 : Nat) (u : GoString) (hb : 0xC2 ≤ b ∧ b ≤ 0xDF)
    (h1 : 0x80 ≤ s1 ∧ s1 ≤ 0xBF) :
    decodeRune (b :: s1 :: u) = ((b % 32) * 64 + s1 % 64, 2) := by
  simp only [decodeRune, first_two b hb]
  rw [if_neg (by omega), if_neg (by simp), if_neg (by omega), if_pos (by omega)]

theorem decodeRune_three (b s1 s2 : Nat) (u : GoString) (hb : 0xE0 ≤ b ∧ b ≤ 0xEF)
    (h1 : 0x80 ≤ s1 ∧ s1 ≤ 0xBF) (h2 : 0x80 ≤ s2 ∧ s2 ≤ 0xBF)
    (hlo : b = 0xE0 → 0xA0 ≤ s1) (hsur : b = 0xED → s1 ≤ 0x9F) :
    decodeRune (b :: s1 :: s2 :: u) = ((b % 16) * 4096 + (s1 % 64) * 64 + s2 % 64, 3) := by
  simp only [decodeRune, first_three b hb]
  rw [if_neg (by omega), if_neg (by simp), if_neg (by split_ifs <;> omega), if_neg (by omega),
    if_neg (by omega), if_pos (by omega)]

theorem decodeRune_four (b s1 s2 s3 : Nat) (u : GoString) (hb : 0xF0 ≤ b ∧ b ≤ 0xF4)
    (h1 : 0x80 ≤ s1 ∧ s1 ≤ 0xBF) (h2 : 0x80 ≤ s2 ∧ s2 ≤ 0xBF) (h3 : 0x80 ≤ s3 ∧ s3 ≤ 0xBF)
    (hlo : b = 0xF0 → 0x90 ≤ s1) (hhi : b = 0xF4 → s1 ≤ 0x8F) :
    decodeRune (b :: s1 :: s2 :: s3 :: u)
      = ((b % 8) * 262144 + (s1 % 64) * 4096 + (s2 % 64) * 64 + s3 % 64, 4) := by
  simp only [decodeRune, first_four b hb]
  rw [if_neg (by omega), if_neg (by simp), if_neg (by split_ifs <;> omega), if_neg (by omega),
    if_neg (by omega), if_neg (by omega), if_neg (by omega)]

theorem decodeRune_cases (b : Nat) (t : GoString) (hb : 0x80 ≤ b) :
    decodeRune (b :: t) = (RuneError, 1) ∨ ∃ l u, b :: t = l ++ u ∧ IsSeq l := by
  by_cases h2 : 0xC2 ≤ b ∧ b ≤ 0xDF
  · rcases t with _ | ⟨s1, t1⟩
    · left
      simp only [decodeRune, first_two b h2]
      rw [if_neg (by omega), if_pos (by simp)]
    · by_cases h1 : 0x80 ≤ s1 ∧ s1 ≤ 0xBF
      · exact Or.inr ⟨[b, s1], t1, rfl, Or.inl ⟨b, s1, rfl, h2, h1⟩⟩
      · left
        simp only [decodeRune, first_two b h2]
        rw [if_neg (by omega), if_neg (by simp), if_pos (by omega)]
  · by_cases h3 : 0xE0 ≤ b ∧ b ≤ 0xEF
    · rcases t with _ | ⟨s1, _ | ⟨s2, t2⟩⟩
      · left
        simp only [decodeRune, first_three b h3]
        rw [if_neg (by omega), if_pos (by simp)]
      · left
        simp only [decodeRune, first_three b h3]
        rw [if_neg (by omega), if_pos (by simp)]
      · by_cases h1 : (0x80 ≤ s1 ∧ s1 ≤ 0xBF) ∧ (b = 0xE0 → 0xA0 ≤ s1) ∧ (b = 0xED → s1 ≤ 0x9F)
        · by_cases h2' : 0x80 ≤ s2 ∧ s2 ≤ 0xBF
          · exact Or.inr ⟨[b, s1, s2], t2, rfl,
              Or.inr (Or.inl ⟨b, s1, s2, rfl, h3, h1.1, h2', h1.2⟩)⟩
          · left
            simp only [decodeRune, first_three b h3]
            rw [if_neg (by omega), if_neg (by simp), if_neg (by split_ifs <;> omega),
              if_neg (by omega), if_pos (by omega)]
        · left
          simp only [decodeRune, first_three b h3]
          rw [if_neg (by omega), if_neg (by simp), if_pos (by split_ifs <;> omega)]
    · by_cases h4 : 0xF0 ≤ b ∧ b ≤ 0xF4
      · rcases t with _ | ⟨s1, _ | ⟨s2, _ | ⟨s3, t3⟩⟩⟩
        · left
          simp only [decodeRune, first_four b h4]
          rw [if_neg (by omega), if_pos (by simp)]
        · left
          simp only [decodeRune, first_four b h4]
          rw [if_neg (by omega), if_pos (by simp)]
        · left
          simp only [decodeRune, first_four b h4]
          rw [if_neg (by omega), if_pos (by simp)]
        · by_cases h1 : (0x80 ≤ s1 ∧ s1 ≤ 0xBF) ∧ (b = 0xF0 → 0x90 ≤ s1) ∧ (b = 0xF4 → s1 ≤ 0x8F)
          · by_cases h2' : 0x80 ≤ s2 ∧ s2 ≤ 0xBF
            · by_cases h3' : 0x80 ≤ s3 ∧ s3 ≤ 0xBF
              · exact Or.inr ⟨[b, s1, s2, s3], t3, rfl,
                  Or.inr (Or.inr ⟨b, s1, s2, s3, rfl, h4, h1.1, h2', h3', h1.2⟩)⟩
              · left
                simp only [decodeRune, first_four b h4]
                rw [if_neg (by omega), if_neg (by simp), if_neg (by split_ifs <;> omega),
                  if_neg (by omega), if_neg (by omega), if_neg (by omega), if_pos (by omega)]
            · left
              simp only [decodeRune, first_four b h4]
              rw [if_neg (by omega), if_neg (by simp), if_neg (by split_ifs <;> omega),
                if_neg (by omega), if_pos (by omega)]
          · left
            simp only [decodeRune, first_four b h4]
            rw [if_neg (by omega), if_neg (by simp), if_pos (by split_ifs <;> omega)]
      · left
        simp only [decodeRune, first_none b (by omega)]
        rw [if_neg (by omega)]

/-- A well-formed sequence decodes to its rune whatever follows it, and the
rune encodes back to the sequence. -/
theorem IsSeq.decode {l : GoString} (h : IsSeq l) :
    ∃ c, (∀ u, decodeRune (l ++ u) = (c, l.length)) ∧ encodeRune c = l ∧ 2 ≤ l.length ∧
      ∃ b t, l = b :: t ∧ 0x80 ≤ b := by
  rcases h with ⟨b, s1, rfl, hb, h1⟩ | ⟨b, s1, s2, rfl, hb, h1, h2, hlo, hsur⟩ |
    ⟨b, s1, s2, s3, rfl, hb, h1, h2, h3, hlo, hhi⟩
  · exact ⟨_, fun u => decodeRune_two b s1 u hb h1, encodeRune_two b s1 hb h1, by simp,
      b, _, rfl, by omega⟩
  · exact ⟨_, fun u => decodeRune_three b s1 s2 u hb h1 h2 hlo hsur,
      encodeRune_three b s1 s2 hb h1 h2 hlo hsur, by simp, b, _, rfl, by omega⟩
  · exact ⟨_, fun u => decodeRune_four b s1 s2 s3 u hb h1 h2 h3 hlo hhi,
      encodeRune_four b s1 s2 s3 hb h1 h2 h3 hlo hhi, by simp, b, _, rfl, by omega⟩

theorem decodeRune_shape (b : Nat) (t : GoString) (hb : 0x80 ≤ b)
    (hn : (decodeRune (b :: t)).2 ≠ 1) :
    ∃ l u, b :: t = l ++ u ∧ IsSeq l := by
  rcases decodeRune_cases b t hb with h | h
  · rw [h] at hn
    exact absurd rfl hn
  · exact h

theorem decodeRune_error (a : Nat) (t : GoString) (ha : 0x80 ≤ a)
    (h : (decodeRune (a :: t)).2 = 1) : decodeRune (a :: t) = (RuneError, 1) := by
  rcases decodeRune_cases a t ha with h' | ⟨l, u, e, hl⟩
  · exact h'
  · obtain ⟨c, hc, -, h2, -⟩ := hl.decode
    rw [e, hc] at h
    simp at h
    omega

theorem decodeRune_take_four (s : GoString) : decodeRune (s.take 4) = decodeRune s := by
  rcases s with _ | ⟨a, t⟩
  · rfl
  · by_cases ha : 0x80 ≤ a
    · have key : ∀ (t1 t2 : GoString), (decodeRune (a :: t1)).2 ≠ 1 →
          (∃ l u1 u2, a :: t1 = l ++ u1 ∧ a :: t2 = l ++ u2 ∧ IsSeq l) →
          decodeRune (a :: t2) = decodeRune (a :: t1) := by
        intro t1 t2 _ ⟨l, u1, u2, e1, e2, hl⟩
        obtain ⟨c, hc, -⟩ := hl.decode
        rw [e1, e2, hc, hc]
      by_cases hn : (decodeRune (a :: t)).2 = 1
      · by_cases hn' : (decodeRune ((a :: t).take 4)).2 = 1
        · rw [decodeRune_error a t ha hn]
          exact decodeRune_error a (t.take 3) ha hn'
        · exfalso
          obtain ⟨l, u, e, hl⟩ := decodeRune_shape a (t.take 3) ha hn'
          obtain ⟨c, hc, -, h2, -⟩ := hl.decode
          have : a :: t = l ++ (u ++ t.drop 3) := by
            rw [← List.append_assoc, ← e]
            simp
          rw [this, hc] at hn
          simp at hn
          omega
      · obtain ⟨l, u, e, hl⟩ := decodeRune_shape a t ha hn
        have hlen : l.length ≤ 4 := by
          rcases hl with ⟨_, _, rfl, -⟩ | ⟨_, _, _, rfl, -⟩ | ⟨_, _, _, _, rfl, -⟩ <;> simp
        apply key t (t.take 3) hn
        refine ⟨l, u, u.take (4 - l.length), e, ?_, hl⟩
        have : (a :: t).take 4 = l ++ u.take (4 - l.length) := by
          rw [e, List.take_append_eq_append_take, List.take_of_length_le hlen]
        simpa using this
    · simp only [List.take, decodeRune]
      rw [if_pos (by omega), if_pos (by omega)]

/-! ## JSON strings: one step of the decoder on one step of the encoder -/

theorem unquoteLoop_ascii (f b : Nat) (X : GoString) (hb : b < 0x80) :
    unquoteLoop (f + 1) ((if htmlSafeSet b then [b] else escapeByte b) ++ X)
      = (unquoteLoop f X).map (fun p => (b :: p.1, p.2)) := by
  interval_cases b <;> rfl

theorem unquoteLoop_separator (f c : Nat) (X : GoString) (hc : c = 0x2028 ∨ c = 0x2029) :
    unquoteLoop (f + 1) (ascii "\\u202" ++ [hex (c % 16)] ++ X)
      = (unquoteLoop f X).map (fun p => (encodeRune c ++ p.1, p.2)) := by
  rcases hc with rfl | rfl <;> rfl

theorem unquoteLoop_multibyte (f b c n : Nat) (t : GoString) (hb : 0x80 ≤ b)
    (hd : decodeRune (b :: t) = (c, n)) :
    unquoteLoop (f + 1) (b :: t)
      = (unquoteLoop f ((b :: t).drop n)).map (fun p => (encodeRune c ++ p.1, p.2)) := by
  rw [unquoteLoop.eq_def]
  simp only
  rw [if_neg (by omega), if_neg (by omega), if_neg (by omega), if_neg (by omega), hd]

/-! ## JSON: decoding the encoding of a record -/

theorem appendStringLoop_ascii (k b : Nat) (t : GoString) (hb : b < 0x80) :
    appendStringLoop (k + 1) (b :: t)
      = (if htmlSafeSet b then [b] else escapeByte b) ++ appendStringLoop k t := by
  rw [appendStringLoop.eq_def]
  simp only
  rw [if_pos hb]

theorem validLoop_ascii (k b : Nat) (t : GoString) (hb : b < 0x80) :
    validLoop (k + 1) (b :: t) = validLoop k t := by
  rw [validLoop.eq_def]
  simp only
  rw [if_pos hb]

theorem validLoop_multibyte (k b : Nat) (t : GoString) (hb : 0x80 ≤ b)
    (h : validLoop (k + 1) (b :: t) = true) :
    (decodeRune (b :: t)).2 ≠ 1 ∧ validLoop k ((b :: t).drop (decodeRune (b :: t)).2) = true := by
  rw [validLoop.eq_def] at h
  simp only at h
  rw [if_neg (by omega)] at h
  by_cases h1 : (decodeRune (b :: t)).2 = 1
  · rw [if_pos h1] at h
    exact absurd h (by simp)
  · rw [if_neg h1] at h
    exact ⟨h1, h⟩

theorem appendStringLoop_multibyte (k b c n : Nat) (t : GoString) (hb : 0x80 ≤ b)
    (hd : decodeRune (b :: t) = (c, n)) (hn : n ≠ 1) :
    appendStringLoop (k + 1) (b :: t)
      = (if c = 0x2028 ∨ c = 0x2029 then ascii "\\u202" ++ [hex (c % 16)]
          else (b :: t).take n) ++ appendStringLoop k ((b :: t).drop n) := by
  rw [appendStringLoop.eq_def]
  simp only
  rw [if_neg (by omega), decodeRune_take_four, hd]
  simp only
  rw [if_neg (by omega)]
  split_ifs <;> rfl

theorem unquoteLoop_appendStringLoop (k : Nat) :
    ∀ (s : GoString), s.length ≤ k → validLoop k s = true →
    ∀ (rest : GoString) (fuel : Nat), (appendStringLoop k s).length < fuel →
      unquoteLoop fuel (appendStringLoop k s ++ 0x22 :: rest) = some (s, rest) := by
  induction k with
  | zero =>
    intro s hs _ rest fuel hf
    have : s = [] := List.length_eq_zero.mp (by omega)
    subst this
    obtain ⟨f, rfl⟩ : ∃ f, fuel = f + 1 := ⟨fuel - 1, by simp [appendStringLoop] at hf; omega⟩
    rfl
  | succ k ih =>
    intro s hs hv rest fuel hf
    rcases s with _ | ⟨b, t⟩
    · obtain ⟨f, rfl⟩ : ∃ f, fuel = f + 1 := ⟨fuel - 1, by omega⟩
      rfl
    · by_cases hb : b < 0x80
      · rw [appendStringLoop_ascii k b t hb] at hf ⊢
        rw [validLoop_ascii k b t hb] at hv
        have hpos : 0 < (if htmlSafeSet b then [b] else escapeByte b).length := by
          split_ifs
          · simp
          · unfold escapeByte
            split_ifs <;> simp
        obtain ⟨f, rfl⟩ : ∃ f, fuel = f + 1 := ⟨fuel - 1, by omega⟩
        rw [List.append_assoc, unquoteLoop_ascii f b _ hb,
          ih t (by simpa using hs) hv rest f (by rw [List.length_append] at hf; omega)]
        rfl
      · have hb' : 0x80 ≤ b := by omega
        obtain ⟨hn, hv'⟩ := validLoop_multibyte k b t hb' hv
        obtain ⟨l, u, e, hl⟩ := decodeRune_shape b t hb' hn
        obtain ⟨c, hc, henc, h2, b0, t0, hl0, hb0⟩ := hl.decode
        have hd : decodeRune (b :: t) = (c, l.length) := by rw [e, hc]
        have hdrop : (b :: t).drop l.length = u := by rw [e]; simp
        have htake : (b :: t).take l.length = l := by rw [e]; simp
        rw [hd] at hv'
        simp only at hv'
        rw [hdrop] at hv'
        have hu : u.length ≤ k := by
          have := congrArg List.length e
          simp only [List.length_cons, List.length_append] at this
          simp only [List.length_cons] at hs
          omega
        rw [appendStringLoop_multibyte k b c l.length t hb' hd (by omega), hdrop, htake] at hf ⊢
        obtain ⟨f, rfl⟩ : ∃ f, fuel = f + 1 := ⟨fuel - 1, by omega⟩
        by_cases hsep : c = 0x2028 ∨ c = 0x2029
        · rw [if_pos hsep] at hf ⊢
          rw [List.append_assoc, unquoteLoop_separator f c _ hsep,
            ih u hu hv' rest f
              (by simp only [List.length_append, List.length_singleton] at hf; omega), henc]
          simp [e]
        · rw [if_neg hsep] at hf ⊢
          rw [List.append_assoc]
          have hd' := hc (appendStringLoop k u ++ 0x22 :: rest)
          subst hl0
          rw [List.cons_append] at hd' ⊢
          rw [unquoteLoop_multibyte f b0 c _ _ hb0 hd']
          have : (b0 :: (t0 ++ (appendStringLoop k u ++ 0x22 :: rest))).drop (b0 :: t0).length
              = appendStringLoop k u ++ 0x22 :: rest := by
            rw [← List.cons_append]; simp
          rw [this, ih u hu hv' rest f (by simp only [List.length_append] at hf; omega), henc]
          simp [e]

theorem appendString_append (s rest : GoString) :
    appendString s ++ rest = 0x22 :: (appendStringLoop s.length s ++ 0x22 :: rest) := by
  simp [appendString]

theorem unquote_appendStringLoop (s rest : GoString) (hv : validString s = true) :
    unquote (appendStringLoop s.length s ++ 0x22 :: rest) = some (s, rest) :=
  unquoteLoop_appendStringLoop s.length s (le_refl _) hv rest _ (by simp)

theorem parseValue_appendString (s rest : GoString) (hv : validString s = true) :
    parseValue (appendString s ++ rest) = some (JValue.str s, rest) := by
  rw [appendString_append, parseValue, if_pos rfl, unquote_appendStringLoop s rest hv]
  rfl

theorem parseValue_appendBool (b : Bool) (rest : GoString) :
    parseValue (appendBool b ++ rest) = some (JValue.bool b, rest) := by
  cases b <;> rfl

theorem skipSpace_cons (c : Nat) (rest : GoString)
    (hc : ¬ (c = 0x20 ∨ c = 0x09 ∨ c = 0x0A ∨ c = 0x0D)) : skipSpace (c :: rest) = c :: rest := by
  rw [skipSpace, if_neg hc]

/-- One member of an object: the key, the colon, the value `v` written as
`text`, and a separator. -/
theorem parseMembers_member (f : Nat) (n : Notification) (key text rest : GoString) (v : JValue)
    (sep : Nat) (hk : validString key = true)
    (hv : ∀ r, parseValue (text ++ r) = some (v, r))
    (htext : ∀ r, skipSpace (text ++ r) = text ++ r)
    (hsep : sep = 0x2C ∨ sep = 0x7D) :
    parseMembers (f + 1) n (appendString key ++ 0x3A :: (text ++ sep :: rest))
      = match setField n key v with
        | none => none
        | some n1 => if sep = 0x2C then parseMembers f n1 rest else some (n1, rest) := by
  rw [parseMembers, appendString_append, skipSpace_cons _ _ (by decide)]
  simp only
  rw [if_neg (by decide), unquote_appendStringLoop key _ hk]
  simp only
  rw [skipSpace_cons _ _ (by decide)]
  simp only
  rw [if_neg (by decide), htext, hv]
  simp only
  cases setField n key v with
  | none => rfl
  | some n1 =>
    simp only
    rw [skipSpace_cons _ _ (by rcases hsep with rfl | rfl <;> decide)]
    simp only
    rcases hsep with rfl | rfl
    · rw [if_pos rfl, if_pos rfl]
    · rw [if_neg (by decide), if_pos rfl, if_neg (by decide)]

theorem marshalNotification_members (n : Notification) :
    (marshalNotification n).1 =
      0x7B :: (appendString (ascii "ID") ++ 0x3A :: (appendString n.ID ++ 0x2C ::
      (appendString (ascii "CreatedAt") ++ 0x3A :: (appendString n.CreatedAt ++ 0x2C ::
      (appendString (ascii "UpdatedAt") ++ 0x3A :: (appendString n.UpdatedAt ++ 0x2C ::
      (appendString (ascii "IsRead") ++ 0x3A :: (appendBool n.IsRead ++ 0x2C ::
      (appendString (ascii "IsDeleted") ++ 0x3A :: (appendBool n.IsDeleted ++ 0x2C ::
      (appendString (ascii "Verification") ++ 0x3A :: (appendBool n.Verification ++ 0x2C ::
      (appendString (ascii "Email") ++ 0x3A :: (appendString n.Email ++ 0x2C ::
      (appendString (ascii "Body") ++ 0x3A :: (appendString n.Body ++ 0x7D :: [])
      ))))))))))))))) := by
  have h1 : ascii "\x7b\"ID\":" = 0x7B :: (appendString (ascii "ID") ++ [0x3A]) := by decide
  have h2 : ascii ",\"CreatedAt\":" = 0x2C :: (appendString (ascii "CreatedAt") ++ [0x3A]) := by
    decide
  have h3 : ascii ",\"UpdatedAt\":" = 0x2C :: (appendString (ascii "UpdatedAt") ++ [0x3A]) := by
    decide
  have h4 : ascii ",\"IsRead\":" = 0x2C :: (appendString (ascii "IsRead") ++ [0x3A]) := by decide
  have h5 : ascii ",\"IsDeleted\":" = 0x2C :: (appendString (ascii "IsDeleted") ++ [0x3A]) := by
    decide
  have h6 : ascii ",\"Verification\":"
      = 0x2C :: (appendString (ascii "Verification") ++ [0x3A]) := by decide
  have h7 : ascii ",\"Email\":" = 0x2C :: (appendString (ascii "Email") ++ [0x3A]) := by decide
  have h8 : ascii ",\"Body\":" = 0x2C :: (appendString (ascii "Body") ++ [0x3A]) := by decide
  have h9 : ascii "\x7d" = [0x7D] := by decide
  simp only [marshalNotification, h1, h2, h3, h4, h5, h6, h7, h8, h9, List.append_assoc,
    List.cons_append, List.singleton_append, List.nil_append]

theorem skipSpace_appendString (s r : GoString) :
    skipSpace (appendString s ++ r) = appendString s ++ r := by
  rw [appendString_append, skipSpace_cons _ _ (by decide)]

theorem skipSpace_appendBool (b : Bool) (r : GoString) :
    skipSpace (appendBool b ++ r) = appendBool b ++ r := by
  cases b <;> rfl

theorem setField_ID (n : Notification) (s : GoString) :
    setField n (ascii "ID") (JValue.str s) = some { n with ID := s } := rfl

theorem setField_CreatedAt (n : Notification) (s : GoString) :
    setField n (ascii "CreatedAt") (JValue.str s) = some { n with CreatedAt := s } := rfl

theorem setField_UpdatedAt (n : Notification) (s : GoString) :
    setField n (ascii "UpdatedAt") (JValue.str s) = some { n with UpdatedAt := s } := rfl

theorem setField_IsRead (n : Notification) (b : Bool) :
    setField n (ascii "IsRead") (JValue.bool b) = some { n with IsRead := b } := rfl

theorem setField_IsDeleted (n : Notification) (b : Bool) :
    setField n (ascii "IsDeleted") (JValue.bool b) = some { n with IsDeleted := b } := rfl

theorem setField_Verification (n : Notification) (b : Bool) :
    setField n (ascii "Verification") (JValue.bool b) = some { n with Verification := b } := rfl

theorem setField_Email (n : Notification) (s : GoString) :
    setField n (ascii "Email") (JValue.str s) = some { n with Email := s } := rfl

theorem setField_Body (n : Notification) (s : GoString) :
    setField n (ascii "Body") (JValue.str s) = some { n with Body := s } := rfl

theorem unmarshal_marshal (n : Notification)
    (h1 : validString n.ID = true) (h2 : validString n.CreatedAt = true)
    (h3 : validString n.UpdatedAt = true) (h4 : validString n.Email = true)
    (h5 : validString n.Body = true) :
    unmarshalNotification (marshalNotification n).1 = some n := by
  obtain ⟨f, hf⟩ : ∃ f, (marshalNotification n).1.length = f + 8 := by
    refine ⟨(marshalNotification n).1.length - 8, ?_⟩
    have : 8 ≤ (marshalNotification n).1.length := by
      rw [marshalNotification_members]
      simp only [List.length_cons, List.length_append, appendString]
      omega
    omega
  rw [unmarshalNotification, hf, marshalNotification_members, skipSpace_cons _ _ (by decide)]
  simp only
  rw [if_pos trivial, skipSpace_appendString, appendString_append]
  simp only
  rw [if_neg (by decide), ← appendString_append]
  rw [parseMembers_member _ _ _ _ _ (JValue.str n.ID) _ (by decide)
    (fun r => parseValue_appendString _ r h1) (fun r => skipSpace_appendString _ r) (Or.inl rfl),
    setField_ID]
  simp only
  rw [if_pos trivial]
  rw [parseMembers_member _ _ _ _ _ (JValue.str n.CreatedAt) _ (by decide)
    (fun r => parseValue_appendString _ r h2) (fun r => skipSpace_appendString _ r) (Or.inl rfl),
    setField_CreatedAt]
  simp only
  rw [if_pos trivial]
  rw [parseMembers_member _ _ _ _ _ (JValue.str n.UpdatedAt) _ (by decide)
    (fun r => parseValue_appendString _ r h3) (fun r => skipSpace_appendString _ r) (Or.inl rfl),
    setField_UpdatedAt]
  simp only
  rw [if_pos trivial]
  rw [parseMembers_member _ _ _ _ _ (JValue.bool n.IsRead) _ (by decide)
    (fun r => parseValue_appendBool _ r) (fun r => skipSpace_appendBool _ r) (Or.inl rfl),
    setField_IsRead]
  simp only
  rw [if_pos trivial]
  rw [parseMembers_member _ _ _ _ _ (JValue.bool n.IsDeleted) _ (by decide)
    (fun r => parseValue_appendBool _ r) (fun r => skipSpace_appendBool _ r) (Or.inl rfl),
    setField_IsDeleted]
  simp only
  rw [if_pos trivial]
  rw [parseMembers_member _ _ _ _ _ (JValue.bool n.Verification) _ (by decide)
    (fun r => parseValue_appendBool _ r) (fun r => skipSpace_appendBool _ r) (Or.inl rfl),
    setField_Verification]
  simp only
  rw [if_pos trivial]
  rw [parseMembers_member _ _ _ _ _ (JValue.str n.Email) _ (by decide)
    (fun r => parseValue_appendString _ r h4) (fun r => skipSpace_appendString _ r) (Or.inl rfl),
    setField_Email]
  simp only
  rw [if_pos trivial]
  rw [parseMembers_member _ _ _ _ _ (JValue.str n.Body) _ (by decide)
    (fun r => parseValue_appendString _ r h5) (fun r => skipSpace_appendString _ r) (Or.inr rfl),
    setField_Body]
  simp only
  rw [if_neg (by decide)]
  rfl

/-! ## The encoder writes well-formed UTF-8 -/

theorem validLoop_nil (k : Nat) : validLoop k [] = true := by
  cases k <;> rfl

theorem decodeRune_size_pos (b : Nat) (t : GoString) : 1 ≤ (decodeRune (b :: t)).2 := by
  by_cases hb : b < 0x80
  · rw [decodeRune, if_pos hb]
  · rcases decodeRune_cases b t (by omega) with h | ⟨l, u, e, hl⟩
    · rw [h]
    · obtain ⟨c, hc, -, h2, -⟩ := hl.decode
      rw [e, hc]
      simp only
      omega

theorem validLoop_step (k b : Nat) (t : GoString) (hb : 0x80 ≤ b) :
    validLoop (k + 1) (b :: t)
      = if (decodeRune (b :: t)).2 = 1 then false
        else validLoop k ((b :: t).drop (decodeRune (b :: t)).2) := by
  rw [validLoop.eq_def]
  simp only
  rw [if_neg (by omega)]

theorem validLoop_fuel (k : Nat) :
    ∀ (s : GoString) (k' : Nat), s.length ≤ k → s.length ≤ k' →
      validLoop k s = validLoop k' s := by
  induction k with
  | zero =>
    intro s k' hs _
    have : s = [] := List.length_eq_zero.mp (by omega)
    subst this
    rw [validLoop_nil, validLoop_nil]
  | succ k ih =>
    intro s k' hs hs'
    rcases s with _ | ⟨b, t⟩
    · rw [validLoop_nil, validLoop_nil]
    · obtain ⟨k'', rfl⟩ : ∃ k'', k' = k'' + 1 := ⟨k' - 1, by simp at hs'; omega⟩
      simp only [List.length_cons] at hs hs'
      by_cases hb : b < 0x80
      · rw [validLoop_ascii k b t hb, validLoop_ascii k'' b t hb]
        exact ih t k'' (by omega) (by omega)
      · rw [validLoop_step k b t (by omega), validLoop_step k'' b t (by omega)]
        split_ifs with h1
        · rfl
        · have hp := decodeRune_size_pos b t
          apply ih
          · simp only [List.length_drop, List.length_cons]; omega
          · simp only [List.length_drop, List.length_cons]; omega

theorem validLoop_append (k : Nat) :
    ∀ (a : GoString), a.length ≤ k → validLoop k a = true →
      ∀ (b : GoString), validString b = true → validLoop (k + b.length) (a ++ b) = true := by
  induction k with
  | zero =>
    intro a ha _ b hb
    have : a = [] := List.length_eq_zero.mp (by omega)
    subst this
    rw [Nat.zero_add, List.nil_append]
    exact hb
  | succ k ih =>
    intro a ha hv b hb
    rcases a with _ | ⟨x, t⟩
    · rw [List.nil_append, validLoop_fuel _ b b.length (by omega) (le_refl _)]
      exact hb
    · simp only [List.length_cons] at ha
      rw [show k + 1 + b.length = (k + b.length) + 1 by omega, List.cons_append]
      by_cases hx : x < 0x80
      · rw [validLoop_ascii _ x _ hx]
        rw [validLoop_ascii k x t hx] at hv
        exact ih t (by omega) hv b hb
      · obtain ⟨hn, hv'⟩ := validLoop_multibyte k x t (by omega) hv
        obtain ⟨l, u, e, hl⟩ := decodeRune_shape x t (by omega) hn
        obtain ⟨c, hc, -, h2, -⟩ := hl.decode
        have hd : decodeRune (x :: t) = (c, l.length) := by rw [e, hc]
        have hd' : decodeRune (x :: (t ++ b)) = (c, l.length) := by
          rw [← List.cons_append, e, List.append_assoc, hc]
        rw [hd] at hv'
        simp only at hv'
        rw [e, List.drop_left] at hv'
        rw [validLoop_step _ x _ (by omega), hd']
        simp only
        rw [if_neg (by omega), ← List.cons_append, e, List.append_assoc, List.drop_left]
        have hu : u.length ≤ k := by
          have := congrArg List.length e
          simp only [List.length_cons, List.length_append] at this
          omega
        exact ih u hu hv' b hb

theorem validString_append (a b : GoString) (ha : validString a = true)
    (hb : validString b = true) : validString (a ++ b) = true := by
  unfold validString
  rw [List.length_append]
  exact validLoop_append a.length a (le_refl _) ha b hb

theorem validString_cons_ascii (x : Nat) (t : GoString) (hx : x < 0x80)
    (ht : validString t = true) : validString (x :: t) = true := by
  unfold validString
  rw [List.length_cons, validLoop_ascii _ x t hx]
  exact ht

theorem IsSeq.valid {l : GoString} (h : IsSeq l) : validString l = true := by
  obtain ⟨c, hc, -, h2, b, t, rfl, hb⟩ := h.decode
  have hd := hc []
  rw [List.append_nil] at hd
  unfold validString
  rw [List.length_cons, validLoop_step _ b t hb, hd]
  simp only
  rw [if_neg (by omega), List.drop_length]
  exact validLoop_nil _

theorem validString_piece (b : Nat) (hb : b < 0x80) :
    validString (if htmlSafeSet b then [b] else escapeByte b) = true := by
  interval_cases b <;> rfl

theorem validString_appendStringLoop (k : Nat) :
    ∀ s : GoString, validString (appendStringLoop k s) = true := by
  induction k with
  | zero => intro s; rfl
  | succ k ih =>
    intro s
    rcases s with _ | ⟨b, t⟩
    · rfl
    · by_cases hb : b < 0x80
      · rw [appendStringLoop_ascii k b t hb]
        exact validString_append _ _ (validString_piece b hb) (ih t)
      · by_cases hn : (decodeRune (b :: t)).2 = 1
        · have hd := decodeRune_error b t (by omega) hn
          rw [appendStringLoop.eq_def]
          simp only
          rw [if_neg hb, decodeRune_take_four, hd]
          simp only
          rw [if_pos (by simp)]
          exact validString_append _ _ (by decide) (ih t)
        · obtain ⟨l, u, e, hl⟩ := decodeRune_shape b t (by omega) hn
          obtain ⟨c, hc, -, h2, -⟩ := hl.decode
          have hd : decodeRune (b :: t) = (c, l.length) := by rw [e, hc]
          rw [appendStringLoop_multibyte k b c l.length t (by omega) hd (by omega)]
          apply validString_append _ _ _ (ih _)
          split_ifs with hs
          · rcases hs with rfl | rfl <;> decide
          · rw [e, List.take_left]
            exact hl.valid

theorem validString_appendString (s : GoString) : validString (appendString s) = true := by
  unfold appendString
  exact validString_cons_ascii _ _ (by decide)
    (validString_append _ _ (validString_appendStringLoop _ s) (by decide))

theorem validString_appendBool (b : Bool) : validString (appendBool b) = true := by
  cases b <;> decide

theorem validString_marshalNotification (n : Notification) :
    validString (marshalNotification n).1 = true := by
  unfold marshalNotification
  simp only
  refine validString_append _ _ ?_ (by decide)
  refine validString_append _ _ ?_ (validString_appendString _)
  refine validString_append _ _ ?_ (by decide)
  refine validString_append _ _ ?_ (validString_appendString _)
  refine validString_append _ _ ?_ (by decide)
  refine validString_append _ _ ?_ (validString_appendBool _)
  refine validString_append _ _ ?_ (by decide)
  refine validString_append _ _ ?_ (validString_appendBool _)
  refine validString_append _ _ ?_ (by decide)
  refine validString_append _ _ ?_ (validString_appendBool _)
  refine validString_append _ _ ?_ (by decide)
  refine validString_append _ _ ?_ (validString_appendString _)
  refine validString_append _ _ ?_ (by decide)
  refine validString_append _ _ ?_ (validString_appendString _)
  refine validString_append _ _ ?_ (by decide)
  refine validString_append _ _ ?_ (validString_appendString _)
  decide

/-! ## JSON: decoding the encoding of any record -/

set_option maxRecDepth 10000

theorem unquoteLoop_replacement (f : Nat) (X : GoString) :
    unquoteLoop (f + 1) (ascii "\\ufffd" ++ X)
      = (unquoteLoop f X).map (fun p => (encodeRune RuneError ++ p.1, p.2)) := rfl

theorem appendStringLoop_invalid (k b : Nat) (t : GoString) (hb : 0x80 ≤ b)
    (hn : (decodeRune (b :: t)).2 = 1) :
    appendStringLoop (k + 1) (b :: t) = ascii "\\ufffd" ++ appendStringLoop k t := by
  have hd := decodeRune_error b t hb hn
  rw [appendStringLoop.eq_def]
  simp only
  rw [if_neg (by omega), decodeRune_take_four, hd]
  simp only
  rw [if_pos (by simp)]

theorem coerceLoop_ascii (k b : Nat) (t : GoString) (hb : b < 0x80) :
    coerceLoop (k + 1) (b :: t) = b :: coerceLoop k t := by
  rw [coerceLoop.eq_def]
  simp only
  rw [if_pos hb]

theorem coerceLoop_step (k b : Nat) (t : GoString) (hb : 0x80 ≤ b) :
    coerceLoop (k + 1) (b :: t)
      = if (decodeRune (b :: t)).2 = 1 then encodeRune RuneError ++ coerceLoop k t
        else (b :: t).take (decodeRune (b :: t)).2
          ++ coerceLoop k ((b :: t).drop (decodeRune (b :: t)).2) := by
  rw [coerceLoop.eq_def]
  simp only
  rw [if_neg (by omega)]

/-- Reading back the string literal of any `s` gives `s` coerced to valid
UTF-8. -/
theorem unquoteLoop_appendStringLoop_coerce (k : Nat) :
    ∀ (s : GoString), s.length ≤ k →
    ∀ (rest : GoString) (fuel : Nat), (appendStringLoop k s).length < fuel →
      unquoteLoop fuel (appendStringLoop k s ++ 0x22 :: rest) = some (coerceLoop k s, rest) := by
  induction k with
  | zero =>
    intro s hs rest fuel hf
    have : s = [] := List.length_eq_zero.mp (by omega)
    subst this
    obtain ⟨f, rfl⟩ : ∃ f, fuel = f + 1 := ⟨fuel - 1, by simp [appendStringLoop] at hf; omega⟩
    rfl
  | succ k ih =>
    intro s hs rest fuel hf
    rcases s with _ | ⟨b, t⟩
    · obtain ⟨f, rfl⟩ : ∃ f, fuel = f + 1 := ⟨fuel - 1, by omega⟩
      rfl
    · simp only [List.length_cons] at hs
      by_cases hb : b < 0x80
      · rw [appendStringLoop_ascii k b t hb] at hf ⊢
        have hpos : 0 < (if htmlSafeSet b then [b] else escapeByte b).length := by
          split_ifs
          · simp
          · unfold escapeByte
            split_ifs <;> simp
        obtain ⟨f, rfl⟩ : ∃ f, fuel = f + 1 := ⟨fuel - 1, by omega⟩
        rw [List.append_assoc, unquoteLoop_ascii f b _ hb,
          ih t (by omega) rest f (by rw [List.length_append] at hf; omega),
          coerceLoop_ascii k b t hb]
        rfl
      · have hb' : 0x80 ≤ b := by omega
        rw [coerceLoop_step k b t hb']
        by_cases hn : (decodeRune (b :: t)).2 = 1
        · rw [appendStringLoop_invalid k b t hb' hn] at hf ⊢
          obtain ⟨f, rfl⟩ : ∃ f, fuel = f + 1 := ⟨fuel - 1, by omega⟩
          have hlen : (ascii "\\ufffd").length = 6 := rfl
          rw [if_pos hn, List.append_assoc, unquoteLoop_replacement,
            ih t (by omega) rest f (by rw [List.length_append, hlen] at hf; omega)]
          rfl
        · obtain ⟨l, u, e, hl⟩ := decodeRune_shape b t hb' hn
          obtain ⟨c, hc, henc, h2, b0, t0, hl0, hb0⟩ := hl.decode
          have hd : decodeRune (b :: t) = (c, l.length) := by rw [e, hc]
          have hdrop : (b :: t).drop l.length = u := by rw [e]; simp
          have htake : (b :: t).take l.length = l := by rw [e]; simp
          have hu : u.length ≤ k := by
            have := congrArg List.length e
            simp only [List.length_cons, List.length_append] at this
            omega
          rw [if_neg hn, hd]
          simp only
          rw [hdrop, htake]
          rw [appendStringLoop_multibyte k b c l.length t hb' hd (by omega), hdrop, htake] at hf ⊢
          obtain ⟨f, rfl⟩ : ∃ f, fuel = f + 1 := ⟨fuel - 1, by omega⟩
          by_cases hsep : c = 0x2028 ∨ c = 0x2029
          · rw [if_pos hsep] at hf ⊢
            rw [List.append_assoc, unquoteLoop_separator f c _ hsep,
              ih u hu rest f
                (by simp only [List.length_append, List.length_singleton] at hf; omega), henc]
            rfl
          · rw [if_neg hsep] at hf ⊢
            rw [List.append_assoc]
            have hd' := hc (appendStringLoop k u ++ 0x22 :: rest)
            subst hl0
            rw [List.cons_append] at hd' ⊢
            rw [unquoteLoop_multibyte f b0 c _ _ hb0 hd']
            have : (b0 :: (t0 ++ (appendStringLoop k u ++ 0x22 :: rest))).drop (b0 :: t0).length
                = appendStringLoop k u ++ 0x22 :: rest := by
              rw [← List.cons_append]; simp
            rw [this, ih u hu rest f (by simp only [List.length_append] at hf; omega), henc]
            rfl

theorem coerceLoop_valid (k : Nat) :
    ∀ (s : GoString), s.length ≤ k → validLoop k s = true → coerceLoop k s = s := by
  induction k with
  | zero =>
    intro s hs _
    have : s = [] := List.length_eq_zero.mp (by omega)
    subst this
    rfl
  | succ k ih =>
    intro s hs hv
    rcases s with _ | ⟨b, t⟩
    · rfl
    · simp only [List.length_cons] at hs
      by_cases hb : b < 0x80
      · rw [coerceLoop_ascii k b t hb, ih t (by omega) (by rwa [validLoop_ascii k b t hb] at hv)]
      · obtain ⟨hn, hv'⟩ := validLoop_multibyte k b t (by omega) hv
        have hp := decodeRune_size_pos b t
        rw [coerceLoop_step k b t (by omega), if_neg hn,
          ih _ (by simp only [List.length_drop, List.length_cons]; omega) hv',
          List.take_append_drop]

theorem coerceUTF8_valid (s : GoString) (h : validString s = true) : coerceUTF8 s = s :=
  coerceLoop_valid s.length s (le_refl _) h

theorem parseValue_appendString_coerce (s rest : GoString) :
    parseValue (appendString s ++ rest) = some (JValue.str (coerceUTF8 s), rest) := by
  rw [appendString_append, parseValue, if_pos rfl, unquote,
    unquoteLoop_appendStringLoop_coerce s.length s (le_refl _) rest _ (by simp)]
  rfl

/-- Decoding the encoding of any record gives the record with its string
fields coerced to valid UTF-8. -/
theorem unmarshal_marshal_coerce (n : Notification) :
    unmarshalNotification (marshalNotification n).1
      = some { n with ID := coerceUTF8 n.ID, CreatedAt := coerceUTF8 n.CreatedAt,
                      UpdatedAt := coerceUTF8 n.UpdatedAt, Email := coerceUTF8 n.Email,
                      Body := coerceUTF8 n.Body } := by
  obtain ⟨f, hf⟩ : ∃ f, (marshalNotification n).1.length = f + 8 := by
    refine ⟨(marshalNotification n).1.length - 8, ?_⟩
    have : 8 ≤ (marshalNotification n).1.length := by
      rw [marshalNotification_members]
      simp only [List.length_cons, List.length_append, appendString]
      omega
    omega
  rw [unmarshalNotification, hf, marshalNotification_members, skipSpace_cons _ _ (by decide)]
  simp only
  rw [if_pos trivial, skipSpace_appendString, appendString_append]
  simp only
  rw [if_neg (by decide), ← appendString_append]
  rw [parseMembers_member _ _ _ _ _ (JValue.str (coerceUTF8 n.ID)) _ (by decide)
    (fun r => parseValue_appendString_coerce _ r) (fun r => skipSpace_appendString _ r) (Or.inl rfl),
    setField_ID]
  simp only
  rw [if_pos trivial]
  rw [parseMembers_member _ _ _ _ _ (JValue.str (coerceUTF8 n.CreatedAt)) _ (by decide)
    (fun r => parseValue_appendString_coerce _ r) (fun r => skipSpace_appendString _ r) (Or.inl rfl),
    setField_CreatedAt]
  simp only
  rw [if_pos trivial]
  rw [parseMembers_member _ _ _ _ _ (JValue.str (coerceUTF8 n.UpdatedAt)) _ (by decide)
    (fun r => parseValue_appendString_coerce _ r) (fun r => skipSpace_appendString _ r) (Or.inl rfl),
    setField_UpdatedAt]
  simp only
  rw [if_pos trivial]
  rw [parseMembers_member _ _ _ _ _ (JValue.bool n.IsRead) _ (by decide)
    (fun r => parseValue_appendBool _ r) (fun r => skipSpace_appendBool _ r) (Or.inl rfl),
    setField_IsRead]
  simp only
  rw [if_pos trivial]
  rw [parseMembers_member _ _ _ _ _ (JValue.bool n.IsDeleted) _ (by decide)
    (fun r => parseValue_appendBool _ r) (fun r => skipSpace_appendBool _ r) (Or.inl rfl),
    setField_IsDeleted]
  simp only
  rw [if_pos trivial]
  rw [parseMembers_member _ _ _ _ _ (JValue.bool n.Verification) _ (by decide)
    (fun r => parseValue_appendBool _ r) (fun r => skipSpace_appendBool _ r) (Or.inl rfl),
    setField_Verification]
  simp only
  rw [if_pos trivial]
  rw [parseMembers_member _ _ _ _ _ (JValue.str (coerceUTF8 n.Email)) _ (by decide)
    (fun r => parseValue_appendString_coerce _ r) (fun r => skipSpace_appendString _ r) (Or.inl rfl),
    setField_Email]
  simp only
  rw [if_pos trivial]
  rw [parseMembers_member _ _ _ _ _ (JValue.str (coerceUTF8 n.Body)) _ (by decide)
    (fun r => parseValue_appendString_coerce _ r) (fun r => skipSpace_appendString _ r) (Or.inr rfl),
    setField_Body]
  simp only
  rw [if_neg (by decide)]
  rfl

theorem unmarshal_placeholder (id : GoString) :
    unmarshalNotification (marshalNotification (placeholder id)).1
      = some (placeholder (coerceUTF8 id)) := by
  rw [unmarshal_marshal_coerce]
  rfl

/-! ## The handlers, unfolded -/

theorem notificationHandler_lookup (d : DB) (r : Request) (h : r.FormValue (ascii "id") ≠ []) :
    notificationHandler (some d) {} r
      = (({} : ResponseWriter).HeaderSet "Content-Type" "application/json" |>.Write
          (marshalResponse ⟨200, (marshalNotification
            (getNotification d (r.FormValue (ascii "id"))).1.1).1⟩).1,
         some (getNotification d (r.FormValue (ascii "id"))).2) := by
  unfold notificationHandler
  simp only [h, ne_eq, not_false_eq_true, if_true]
  rfl

theorem notificationHandler_default (d : DB) (r : Request) (h : r.FormValue (ascii "id") = []) :
    notificationHandler (some d) {} r
      = (({} : ResponseWriter).HeaderSet "Content-Type" "application/json" |>.Write
          (marshalResponse ⟨200, ascii "no message"⟩).1, some d) := by
  unfold notificationHandler
  simp only [h, ne_eq, not_true_eq_false, if_false]
  rfl

theorem getNotification_noRows (d : DB) (id : GoString) (h : d.rows id = .noRows) :
    (getNotification d id).1.1 = placeholder id := by
  simp only [getNotification, DB.QueryRow, h]
  rfl

theorem getNotification_row (d : DB) (id a b c e m : GoString) (p q v : Bool)
    (h : d.rows id = .row (some a) (some b) (some c) (some p) (some q) (some v) (some e)
      (some m) none) :
    (getNotification d id).1.1 = ⟨a, b, c, p, q, v, e, m⟩ := by
  simp only [getNotification, DB.QueryRow, h]
  rfl

theorem marshalNotification_placeholder (id : GoString) :
    (marshalNotification (placeholder id)).1
      = ascii "\x7b\"ID\":" ++ appendString id ++ ascii ",\"CreatedAt\":\"\",\"UpdatedAt\":\"\",\"IsRead\":false,\"IsDeleted\":false,\"Verification\":false,\"Email\":\"\",\"Body\":\"No message found\"\x7d" := by
  simp only [marshalNotification, placeholder, List.append_assoc]
  rfl

/-- On a failure the returned record is what `Scan` left behind with `ID` and
`Body` overwritten; it is the placeholder when the failure comes before any
destination other than `ID` is assigned. -/
theorem getNotification_failure_record (db : DB) (id : GoString)
    (h : (Scan (db.rows id) {}).2 ≠ none) :
    (getNotification db id).1.1
      = { (Scan (db.rows id) {}).1 with ID := id, Body := ascii "No message found" } ∧
    (failsEarly (db.rows id) = true → (getNotification db id).1.1 = placeholder id) := by
  have h1 : (getNotification db id).1.1
      = { (Scan (db.rows id) {}).1 with ID := id, Body := ascii "No message found" } := by
    simp only [getNotification, DB.QueryRow]
    simp [h]
  refine ⟨h1, fun he => ?_⟩
  rw [h1]
  cases hr : db.rows id with
  | queryErr e => rfl
  | noRows => rfl
  | row i c u r dd v e b ce =>
    rw [hr] at he
    cases i with
    | none => rfl
    | some i =>
      cases c with
      | none => rfl
      | some c => simp [failsEarly] at he

/-! ## The claims -/

/-- C1: whenever the query or its scan fails, `getNotification` returns a
record whose `ID` is the identifier asked for and whose `Body` is
"No message found", and its error result is nil. -/
theorem getNotification_absorbs_failure (db : DB) (id : GoString)
    (h : (Scan (db.rows id) {}).2 ≠ none) :
    (getNotification db id).1.1.ID = id ∧
    (getNotification db id).1.1.Body = ascii "No message found" ∧
    (getNotification db id).1.2 = none := by
  simp only [getNotification, DB.QueryRow]
  simp [h]

theorem getNotification_absorbs_failure_witness :
    (Scan (emptyStore.rows (ascii "42")) {}).2 ≠ none ∧
    (getNotification emptyStore (ascii "42")).1.1.ID = ascii "42" ∧
    (getNotification emptyStore (ascii "42")).1.1.Body = ascii "No message found" ∧
    (getNotification emptyStore (ascii "42")).1.2 = none :=
  ⟨by decide, getNotification_absorbs_failure emptyStore (ascii "42") (by decide)⟩

/-- C2: without a database handle the `/notification` handler answers 503
with the JSON envelope "Database connection not available", whatever the
request, and there is no handle to look anything up with. -/
theorem notification_without_db (r : Request) :
    (notificationHandler none {} r).1.status = 503 ∧
    (notificationHandler none {} r).1.HeaderGet "Content-Type" = some "application/json" ∧
    (notificationHandler none {} r).1.body
      = ascii "\x7b\"Status\":503,\"Message\":\"Database connection not available\"\x7d" ∧
    (notificationHandler none {} r).2.isNone = true :=
  ⟨rfl, rfl, rfl, rfl⟩

/-- C4: with a database handle and an absent or empty `id`, the
`/notification` handler answers 200 with the envelope whose message is the
literal "no message", and looks nothing up. -/
theorem notification_without_id (d : DB) (r : Request) (h : r.FormValue (ascii "id") = []) :
    (notificationHandler (some d) {} r).1.status = 200 ∧
    (notificationHandler (some d) {} r).1.HeaderGet "Content-Type" = some "application/json" ∧
    (notificationHandler (some d) {} r).1.body
      = ascii "\x7b\"Status\":200,\"Message\":\"no message\"\x7d" ∧
    (notificationHandler (some d) {} r).2.map DB.queries = some d.queries := by
  rw [notificationHandler_default d r h]
  exact ⟨rfl, rfl, rfl, rfl⟩

theorem notification_without_id_witness :
    (Request.FormValue { URLPath := ascii "/notification" } (ascii "id") = []) ∧
    (notificationHandler (some oneRowStore) {} { URLPath := ascii "/notification" }).1.status
      = 200 ∧
    (notificationHandler (some oneRowStore) {} { URLPath := ascii "/notification" }).1.body
      = ascii "\x7b\"Status\":200,\"Message\":\"no message\"\x7d" :=
  ⟨rfl, (notification_without_id oneRowStore { URLPath := ascii "/notification" } rfl).1,
    (notification_without_id oneRowStore { URLPath := ascii "/notification" } rfl).2.2.1⟩

/-- C5: a row whose third column fails to convert (a NULL in `UpdatedAt`)
makes `Scan` fail after it has assigned `ID` and `CreatedAt`; the record
`getNotification` returns then carries "No message found" next to the stored
`CreatedAt`, and is not the placeholder. -/
theorem getNotification_late_scan_failure :
    (Scan (nullUpdatedAtStore.rows (ascii "42")) {}).2 ≠ none ∧
    (getNotification nullUpdatedAtStore (ascii "42")).1.1
      = { ID := ascii "42", CreatedAt := ascii "2024-01-01", UpdatedAt := [], IsRead := false,
          IsDeleted := false, Verification := false, Email := [],
          Body := ascii "No message found" } ∧
    (getNotification nullUpdatedAtStore (ascii "42")).1.1 ≠ placeholder (ascii "42") := by
  decide

/-- C8: the `/backend` handler answers 200 with the JSON envelope
"Hello World, backend!", whatever the request and whether or not a database
handle is present. -/
theorem backend_always_hello (db : Option DB) (r : Request) (h : r.URLPath = ascii "/backend") :
    (serve db {} r).1 = backendHandler {} r ∧
    (backendHandler {} r).status = 200 ∧
    (backendHandler {} r).HeaderGet "Content-Type" = some "application/json" ∧
    (backendHandler {} r).body
      = ascii "\x7b\"Status\":200,\"Message\":\"Hello World, backend!\"\x7d" := by
  refine ⟨?_, rfl, rfl, rfl⟩
  unfold serve
  rw [if_pos h]

theorem backend_always_hello_witness :
    (serve none {} (requestWithId (ascii "/backend") (ascii "42"))).1.status = 200 ∧
    (serve none {} (requestWithId (ascii "/backend") (ascii "42"))).1.body
      = ascii "\x7b\"Status\":200,\"Message\":\"Hello World, backend!\"\x7d" := by
  have h := backend_always_hello none (requestWithId (ascii "/backend") (ascii "42")) rfl
  rw [h.1]
  exact ⟨h.2.1, h.2.2.2⟩

/-- C9: the `/healthcheck` handler writes the plain text "healthcheck OK",
sets no header and never calls `WriteHeader`, so the status is the default
200, whatever the request and whether or not a database handle is present. -/
theorem healthcheck_plain_ok (db : Option DB) (r : Request)
    (h : r.URLPath = ascii "/healthcheck") :
    (serve db {} r).1 = healthcheckHandler {} r ∧
    (healthcheckHandler {} r).body = ascii "healthcheck OK" ∧
    (healthcheckHandler {} r).calledWriteHeader = false ∧
    (healthcheckHandler {} r).status = 200 ∧
    (healthcheckHandler {} r).header = [] := by
  refine ⟨?_, rfl, rfl, rfl, rfl⟩
  unfold serve
  rw [if_neg (by rw [h]; decide), if_neg (by rw [h]; decide), if_pos h]

theorem healthcheck_plain_ok_witness :
    (serve (some emptyStore) {} { Method := ascii "POST", URLPath := ascii "/healthcheck" }).1.body
      = ascii "healthcheck OK" ∧
    (serve (some emptyStore) {} { Method := ascii "POST", URLPath := ascii "/healthcheck" }).1.status
      = 200 := by
  have h := healthcheck_plain_ok (some emptyStore)
    { Method := ascii "POST", URLPath := ascii "/healthcheck" } rfl
  rw [h.1]
  exact ⟨h.2.1, h.2.2.2.1⟩

/-- C10: the `/notification` handler never answers 500: the error result of
`getNotification` is nil for every store and identifier, and the status is
503 when the handle is absent and 200, with a JSON envelope of status 200,
otherwise. -/
theorem notification_never_500 (db : Option DB) (r : Request) :
    (∀ (d : DB) (id : GoString), (getNotification d id).1.2 = none) ∧
    (notificationHandler db {} r).1.status = (if db.isSome then 200 else 503) ∧
    (notificationHandler db {} r).1.status ≠ 500 ∧
    (db.isSome = true → ∃ msg,
      (notificationHandler db {} r).1.body = (marshalResponse ⟨200, msg⟩).1 ∧
      (notificationHandler db {} r).1.HeaderGet "Content-Type" = some "application/json") := by
  cases db with
  | none =>
    exact ⟨fun _ _ => rfl, rfl, show (503 : Nat) ≠ 500 by decide, fun h => absurd h (by decide)⟩
  | some d =>
    by_cases h : r.FormValue (ascii "id") = []
    · rw [notificationHandler_default d r h]
      exact ⟨fun _ _ => rfl, rfl, show (200 : Nat) ≠ 500 by decide, fun _ => ⟨_, rfl, rfl⟩⟩
    · rw [notificationHandler_lookup d r h]
      exact ⟨fun _ _ => rfl, rfl, show (200 : Nat) ≠ 500 by decide, fun _ => ⟨_, rfl, rfl⟩⟩

/-- C3: with a database handle and a non-empty `id`, the `/notification`
handler looks the identifier up once and answers 200 with the JSON envelope
whose message is the JSON string literal of the JSON encoding of the record
`getNotification` returns; read back as a JSON value that literal is a string
(not an object) whose content is that encoding; on a match the record holds
the stored fields. -/
theorem notification_with_id (d : DB) (r : Request) (h : r.FormValue (ascii "id") ≠ []) :
    (notificationHandler (some d) {} r).1.status = 200 ∧
    (notificationHandler (some d) {} r).1.HeaderGet "Content-Type" = some "application/json" ∧
    (notificationHandler (some d) {} r).1.body
      = ascii "\x7b\"Status\":200,\"Message\":"
        ++ appendString (marshalNotification (getNotification d (r.FormValue (ascii "id"))).1.1).1
        ++ ascii "\x7d" ∧
    (∀ rest : GoString,
      parseValue (appendString
          (marshalNotification (getNotification d (r.FormValue (ascii "id"))).1.1).1 ++ rest)
        = some (JValue.str
          (marshalNotification (getNotification d (r.FormValue (ascii "id"))).1.1).1, rest)) ∧
    (∀ (a b c e m : GoString) (p q v : Bool),
      d.rows (r.FormValue (ascii "id"))
          = .row (some a) (some b) (some c) (some p) (some q) (some v) (some e) (some m) none →
        (getNotification d (r.FormValue (ascii "id"))).1.1 = ⟨a, b, c, p, q, v, e, m⟩) ∧
    (notificationHandler (some d) {} r).2.map DB.queries
      = some (r.FormValue (ascii "id") :: d.queries) := by
  rw [notificationHandler_lookup d r h]
  exact ⟨rfl, rfl, rfl,
    fun rest => parseValue_appendString _ rest (validString_marshalNotification _),
    fun a b c e m p q v hrow => getNotification_row d _ a b c e m p q v hrow, rfl⟩

theorem notification_with_id_witness :
    (Request.FormValue (requestWithId (ascii "/notification") (ascii "7")) (ascii "id") ≠ []) ∧
    (notificationHandler (some oneRowStore) {}
        (requestWithId (ascii "/notification") (ascii "7"))).1.status = 200 ∧
    (notificationHandler (some oneRowStore) {}
        (requestWithId (ascii "/notification") (ascii "7"))).1.body
      = ascii "\x7b\"Status\":200,\"Message\":\"\x7b\\\"ID\\\":\\\"7\\\",\\\"CreatedAt\\\":\\\"2024-01-01\\\",\\\"UpdatedAt\\\":\\\"2024-01-02\\\",\\\"IsRead\\\":true,\\\"IsDeleted\\\":false,\\\"Verification\\\":true,\\\"Email\\\":\\\"a@example.com\\\",\\\"Body\\\":\\\"hello\\\"\x7d\"\x7d" :=
  ⟨by decide,
    (notification_with_id oneRowStore (requestWithId (ascii "/notification") (ascii "7"))
      (by decide)).1,
    (notification_with_id oneRowStore (requestWithId (ascii "/notification") (ascii "7"))
      (by decide)).2.2.1.trans rfl⟩

/-- C6, counterexample: for the identifier `0xFF` (not UTF-8) and no row, the
message of the response is the string literal of an object whose `ID` is the
three bytes of the replacement rune, not the identifier. -/
theorem notification_no_row_counterexample :
    Request.FormValue invalidIdRequest (ascii "id") = [0xFF] ∧
    emptyStore.rows [0xFF] = .noRows ∧
    (notificationHandler (some emptyStore) {} invalidIdRequest).1.body
      = ascii "\x7b\"Status\":200,\"Message\":"
        ++ appendString (marshalNotification (placeholder [0xFF])).1 ++ ascii "\x7d" ∧
    parseValue (appendString (marshalNotification (placeholder [0xFF])).1)
      = some (JValue.str (marshalNotification (placeholder [0xFF])).1, []) ∧
    unmarshalNotification (marshalNotification (placeholder [0xFF])).1
      = some (placeholder [0xEF, 0xBF, 0xBD]) ∧
    unmarshalNotification (marshalNotification (placeholder [0xFF])).1
      ≠ some (placeholder [0xFF]) := by
  decide

/-- C6, amended: with a database handle, a non-empty `id` and no row for it,
the `/notification` handler answers 200 with the envelope whose message is
the JSON string literal of the object with the keys `ID`, `CreatedAt`,
`UpdatedAt`, `IsRead`, `IsDeleted`, `Verification`, `Email`, `Body` in this
order. Read back, the literal is a string whose content is that object, and
the object holds the values `id` coerced to valid UTF-8, "", "", false,
false, false, "", "No message found"; the coerced `id` is `id` when `id` is
valid UTF-8. For `id` = "42" the body is that of the scenario. -/
theorem notification_no_row (d : DB) (r : Request) (h : r.FormValue (ascii "id") ≠ [])
    (hrow : d.rows (r.FormValue (ascii "id")) = .noRows) :
    (notificationHandler (some d) {} r).1.status = 200 ∧
    (notificationHandler (some d) {} r).1.body
      = ascii "\x7b\"Status\":200,\"Message\":"
        ++ appendString (ascii "\x7b\"ID\":" ++ appendString (r.FormValue (ascii "id"))
            ++ ascii ",\"CreatedAt\":\"\",\"UpdatedAt\":\"\",\"IsRead\":false,\"IsDeleted\":false,\"Verification\":false,\"Email\":\"\",\"Body\":\"No message found\"\x7d")
        ++ ascii "\x7d" ∧
    (∀ rest : GoString,
      parseValue (appendString (ascii "\x7b\"ID\":" ++ appendString (r.FormValue (ascii "id"))
            ++ ascii ",\"CreatedAt\":\"\",\"UpdatedAt\":\"\",\"IsRead\":false,\"IsDeleted\":false,\"Verification\":false,\"Email\":\"\",\"Body\":\"No message found\"\x7d") ++ rest)
        = some (JValue.str (ascii "\x7b\"ID\":" ++ appendString (r.FormValue (ascii "id"))
            ++ ascii ",\"CreatedAt\":\"\",\"UpdatedAt\":\"\",\"IsRead\":false,\"IsDeleted\":false,\"Verification\":false,\"Email\":\"\",\"Body\":\"No message found\"\x7d"), rest)) ∧
    unmarshalNotification (ascii "\x7b\"ID\":" ++ appendString (r.FormValue (ascii "id"))
            ++ ascii ",\"CreatedAt\":\"\",\"UpdatedAt\":\"\",\"IsRead\":false,\"IsDeleted\":false,\"Verification\":false,\"Email\":\"\",\"Body\":\"No message found\"\x7d")
      = some { ID := coerceUTF8 (r.FormValue (ascii "id")), CreatedAt := [], UpdatedAt := [],
               IsRead := false, IsDeleted := false, Verification := false, Email := [],
               Body := ascii "No message found" } ∧
    (validString (r.FormValue (ascii "id")) = true →
      coerceUTF8 (r.FormValue (ascii "id")) = r.FormValue (ascii "id")) ∧
    (r.FormValue (ascii "id") = ascii "42" →
      (notificationHandler (some d) {} r).1.body
        = ascii "\x7b\"Status\":200,\"Message\":\"\x7b\\\"ID\\\":\\\"42\\\",\\\"CreatedAt\\\":\\\"\\\",\\\"UpdatedAt\\\":\\\"\\\",\\\"IsRead\\\":false,\\\"IsDeleted\\\":false,\\\"Verification\\\":false,\\\"Email\\\":\\\"\\\",\\\"Body\\\":\\\"No message found\\\"\x7d\"\x7d") := by
  rw [notificationHandler_lookup d r h, getNotification_noRows d _ hrow,
    ← marshalNotification_placeholder]
  refine ⟨rfl, rfl,
    fun rest => parseValue_appendString _ rest (validString_marshalNotification _),
    unmarshal_placeholder _, coerceUTF8_valid _, ?_⟩
  intro h42
  rw [h42]
  rfl

theorem notification_no_row_witness :
    (Request.FormValue (requestWithId (ascii "/notification") (ascii "42")) (ascii "id") ≠ []) ∧
    (emptyStore.rows
      (Request.FormValue (requestWithId (ascii "/notification") (ascii "42")) (ascii "id"))
        = .noRows) ∧
    (notificationHandler (some emptyStore) {}
        (requestWithId (ascii "/notification") (ascii "42"))).1.body
      = ascii "\x7b\"Status\":200,\"Message\":\"\x7b\\\"ID\\\":\\\"42\\\",\\\"CreatedAt\\\":\\\"\\\",\\\"UpdatedAt\\\":\\\"\\\",\\\"IsRead\\\":false,\\\"IsDeleted\\\":false,\\\"Verification\\\":false,\\\"Email\\\":\\\"\\\",\\\"Body\\\":\\\"No message found\\\"\x7d\"\x7d" ∧
    unmarshalNotification (ascii "\x7b\"ID\":\"42\",\"CreatedAt\":\"\",\"UpdatedAt\":\"\",\"IsRead\":false,\"IsDeleted\":false,\"Verification\":false,\"Email\":\"\",\"Body\":\"No message found\"\x7d")
      = some (placeholder (ascii "42")) :=
  ⟨by decide, rfl,
    (notification_no_row emptyStore (requestWithId (ascii "/notification") (ascii "42"))
      (by decide) rfl).2.2.2.2.2 (by decide),
    (notification_no_row emptyStore (requestWithId (ascii "/notification") (ascii "42"))
      (by decide) rfl).2.2.2.1.trans (by decide)⟩

/-- C7, counterexample: a record whose `ID` is the single byte `0xFF` (not
UTF-8) is encoded with the escape of the replacement rune and decodes to a
record whose `ID` is the three bytes of that rune. -/
theorem roundtrip_counterexample :
    unmarshalNotification (marshalNotification { ID := [0xFF] }).1
        = some { ID := [0xEF, 0xBF, 0xBD] } ∧
    unmarshalNotification (marshalNotification { ID := [0xFF] }).1 ≠ some { ID := [0xFF] } := by
  decide

/-- C7, amended: for every record whose five string fields are valid UTF-8,
decoding the JSON encoding of the record yields the record. -/
theorem roundtrip_valid_utf8 (n : Notification)
    (h1 : validString n.ID = true) (h2 : validString n.CreatedAt = true)
    (h3 : validString n.UpdatedAt = true) (h4 : validString n.Email = true)
    (h5 : validString n.Body = true) :
    unmarshalNotification (marshalNotification n).1 = some n :=
  unmarshal_marshal n h1 h2 h3 h4 h5

theorem roundtrip_valid_utf8_witness :
    validString sampleRecord.ID = true ∧ validString sampleRecord.CreatedAt = true ∧
    validString sampleRecord.UpdatedAt = true ∧ validString sampleRecord.Email = true ∧
    validString sampleRecord.Body = true ∧
    unmarshalNotification (marshalNotification sampleRecord).1 = some sampleRecord :=
  ⟨by decide, by decide, by decide, by decide, by decide,
    roundtrip_valid_utf8 sampleRecord (by decide) (by decide) (by decide) (by decide)
      (by decide)⟩

end Backend
